import Mathlib

/-!
Verification development for the credential subsystem of the
`google-automation-mcp` repository (`src/appscript_mcp/auth/`):
the secure per-user credential store (`credential_store.py`), the
multi-source credential resolver (`google_auth.py`) and the clasp CLI
adapter (`clasp.py`).

Strings are modelled as Lean `String`/`List Char`; naive UTC instants as
`Int`; file permission bits as `Nat` (0o600 = 384, 0o700 = 448).
External effects (the OAuth provider's refresh endpoint, the userinfo
email lookup, the subprocess environment) are modelled as explicit
oracle parameters.
-/

set_option autoImplicit false

namespace GoogleAutomationMcp

/-! ## Email / filename codec

`SecureCredentialStore._get_credential_path` sanitizes an email with
`user_email.replace("@", "_at_").replace(".", "_")`; `list_users`
converts a filename stem back with
`filepath.stem.replace("_at_", "@").replace("_", ".")`.

`replace_char` models Python `str.replace` for a single-character
pattern (every occurrence is replaced, left to right).
`replace_at_marker` models `str.replace("_at_", "@")`: the leftmost
occurrence of the four-character pattern is replaced and scanning
resumes after it (non-overlapping).
-/

def replace_char (a : Char) (r : List Char) : List Char → List Char
  | [] => []
  | c :: s => (if c = a then r else [c]) ++ replace_char a r s

/-- `user_email.replace("@", "_at_").replace(".", "_")` on the character
list of the email (the sanitization in `_get_credential_path`). -/
def safe_email_chars (l : List Char) : List Char :=
  replace_char '.' ['_'] (replace_char '@' ['_', 'a', 't', '_'] l)

/-- The filename stem used for a user's credential file. -/
def safe_email (e : String) : String := ⟨safe_email_chars e.data⟩

/-- `s.replace("_at_", "@")`: leftmost-first, non-overlapping
replacement of the four-character pattern `_at_` by `@`. -/
def replace_at_marker : List Char → List Char
  | c1 :: c2 :: c3 :: c4 :: s =>
    if c1 = '_' ∧ c2 = 'a' ∧ c3 = 't' ∧ c4 = '_' then '@' :: replace_at_marker s
    else c1 :: replace_at_marker (c2 :: c3 :: c4 :: s)
  | c :: s => c :: replace_at_marker s
  | [] => []

/-- `filepath.stem.replace("_at_", "@").replace("_", ".")` — the decode
substitution applied by `list_users`. -/
def decode_email_chars (l : List Char) : List Char :=
  replace_char '_' ['.'] (replace_at_marker l)

/-- String-level decode used by `list_users`. -/
def decode_email (s : String) : String := ⟨decode_email_chars s.data⟩

/-- Per-character view of the encoding substitution: `@` maps to the
marker `_at_`, `.` maps to `_`, all other characters are unchanged. -/
def enc_char (c : Char) : List Char :=
  if c = '@' then ['_', 'a', 't', '_'] else if c = '.' then ['_'] else [c]

/-- Character-by-character encoding; proved equal to `safe_email_chars`. -/
def enc_map : List Char → List Char
  | [] => []
  | c :: s => enc_char c ++ enc_map s

/-- The effect of the decode on a character of the original email once
the `_at_` markers are folded back to `@`: dots had become underscores. -/
def mark_dots (c : Char) : Char := if c = '.' then '_' else c

/-- A position at which the encoding produces a spurious `_at_` marker:
the original email contains `.at.` or `.at@` here. -/
def spurious_head (l : List Char) : Bool :=
  decide (l.take 4 = ['.', 'a', 't', '.']) || decide (l.take 4 = ['.', 'a', 't', '@'])

/-- No position of the string starts a spurious `.at.` / `.at@` pattern. -/
def no_spurious_marker : List Char → Bool
  | [] => true
  | c :: s => !spurious_head (c :: s) && no_spurious_marker s

/-- Split a character list on a separator character; models Python
`str.split(sep)` for a single-character separator. -/
def split_on_char (a : Char) : List Char → List (List Char)
  | [] => [[]]
  | c :: s =>
    if c = a then [] :: split_on_char a s
    else
      match split_on_char a s with
      | f :: rest => (c :: f) :: rest
      | [] => [[c]]

/-- A minimal syntactic-validity predicate for email addresses: exactly
one `@`, nonempty local part and domain over common email characters,
a dot somewhere in the domain, no leading or trailing dot on either
side. -/
def isValidEmail (e : String) : Bool :=
  match split_on_char '@' e.data with
  | [l, d] =>
    !(decide (l = [])) && !(decide (d = [])) &&
    l.all (fun c => c.isAlphanum || c = '.' || c = '_' || c = '-' || c = '+') &&
    d.all (fun c => c.isAlphanum || c = '.' || c = '-') &&
    d.contains '.' &&
    !(decide (l.head? = some '.')) && !(decide (l.getLast? = some '.')) &&
    !(decide (d.head? = some '.')) && !(decide (d.getLast? = some '.'))
  | _ => false

/-! ## Data model

`Credentials` embeds the fields of `google.oauth2.credentials.Credentials`
that the repository reads and writes. Naive UTC instants are `Int`.
`token_uri` is a `String`, with `""` playing the role of a falsy value.
-/

structure Credentials where
  token : Option String
  refresh_token : Option String
  token_uri : String
  client_id : Option String
  client_secret : Option String
  scopes : Option (List String)
  expiry : Option Int
deriving DecidableEq

/-- Python truthiness of an optional string: `None` and `""` are falsy. -/
def truthyS : Option String → Bool
  | none => false
  | some s => !(decide (s = ""))

/-- The `expiry` field of a stored JSON file: either an ISO-8601 string
that `datetime.fromisoformat` parses to the instant `t`, or a string it
rejects with `ValueError`. -/
inductive ExpiryField
  | iso (t : Int)
  | bad (s : String)
deriving DecidableEq

/-- The JSON object written by `SecureCredentialStore.store_credential`
(and read back by `get_credential`). `none` models an absent key. -/
structure CredsData where
  token : Option String
  refresh_token : Option String
  token_uri : Option String
  client_id : Option String
  client_secret : Option String
  scopes : Option (List String)
  expiry : Option ExpiryField
  user_email : String
  stored_at : Int
deriving DecidableEq

/-- Content of a per-user credential file: unreadable (`IOError` on
open/read), malformed JSON (`json.JSONDecodeError`), or a JSON object. -/
inductive StoredFile
  | unreadable
  | badJson
  | json (d : CredsData)
deriving DecidableEq

/-- A file in the credentials directory together with its permission
bits (e.g. 384 = 0o600). -/
structure FileEntry where
  content : StoredFile
  mode : Nat
deriving DecidableEq

/-- State of the `SecureCredentialStore` directory: one entry per
filename stem (`safe_email` of the user), plus the directory's
permission bits. -/
structure StoreState where
  files : List (String × FileEntry)
  dirMode : Nat
deriving DecidableEq

/-- `_ensure_directory` creates the directory and chmods it to
`stat.S_IRWXU` = 0o700 = 448. -/
def initStore : StoreState := ⟨[], 448⟩

def getFile : List (String × FileEntry) → String → Option FileEntry
  | [], _ => none
  | (k, v) :: rest, k2 => if k = k2 then some v else getFile rest k2

/-- Writing a file: `open(path, "w")` truncates an existing file or
creates a new one. -/
def setFile : List (String × FileEntry) → String → FileEntry → List (String × FileEntry)
  | [], k, v => [(k, v)]
  | (k2, v2) :: rest, k, v =>
    if k2 = k then (k, v) :: rest else (k2, v2) :: setFile rest k v

def delFile : List (String × FileEntry) → String → List (String × FileEntry)
  | [], _ => []
  | (k2, v2) :: rest, k => if k2 = k then rest else (k2, v2) :: delFile rest k

/-! ## SecureCredentialStore operations -/

def default_token_uri : String := "https://oauth2.googleapis.com/token"

/-- The dict `creds_data` built by `store_credential`:
`token_uri` is `credentials.token_uri or default` (falsy `""` replaced),
`scopes` is `list(credentials.scopes) if credentials.scopes else None`
(absent and empty both stored as null), `expiry` is
`credentials.expiry.isoformat() if credentials.expiry else None`, and
`stored_at` is `datetime.utcnow().isoformat()` (the instant `now`). -/
def mkCredsData (user_email : String) (c : Credentials) (now : Int) : CredsData :=
  { token := c.token
    refresh_token := c.refresh_token
    token_uri := some (if c.token_uri = "" then default_token_uri else c.token_uri)
    client_id := c.client_id
    client_secret := c.client_secret
    scopes := match c.scopes with
              | none => none
              | some l => if l = [] then none else some l
    expiry := c.expiry.map ExpiryField.iso
    user_email := user_email
    stored_at := now }

/-- `SecureCredentialStore.store_credential`: writes the JSON file for
`safe_email user` and then `_secure_file` chmods it to
`stat.S_IRUSR | stat.S_IWUSR` = 0o600 = 384.  The model has no I/O
failures, so the `True` branch (success) is the one modelled. -/
def store_credential (s : StoreState) (user : String) (c : Credentials) (now : Int) : StoreState :=
  { s with files := setFile s.files (safe_email user) ⟨StoredFile.json (mkCredsData user c now), 384⟩ }

/-- Expiry parsing in `get_credential`: an absent/falsy `expiry` value is
skipped, an unparseable string is caught (`ValueError`) and logged,
leaving `expiry = None`; a parseable ISO string yields the instant. -/
def parseExpiry : Option ExpiryField → Option Int
  | none => none
  | some (ExpiryField.iso t) => some t
  | some (ExpiryField.bad _) => none

/-- The `Credentials` object `get_credential` constructs from a parsed
JSON object: `token_uri` defaults when the key is absent, all other
fields are taken as-is. -/
def credFromData (d : CredsData) : Credentials :=
  { token := d.token
    refresh_token := d.refresh_token
    token_uri := d.token_uri.getD default_token_uri
    client_id := d.client_id
    client_secret := d.client_secret
    scopes := d.scopes
    expiry := parseExpiry d.expiry }

/-- `SecureCredentialStore.get_credential`: a missing file returns
`None`; `IOError`, `json.JSONDecodeError` and `KeyError` are caught and
return `None`; otherwise the `Credentials` object is built. -/
def get_credential (s : StoreState) (user : String) : Option Credentials :=
  match getFile s.files (safe_email user) with
  | none => none
  | some ⟨StoredFile.unreadable, _⟩ => none
  | some ⟨StoredFile.badJson, _⟩ => none
  | some ⟨StoredFile.json d, _⟩ => some (credFromData d)

/-- `SecureCredentialStore.delete_credential`: unlinks the file if it
exists; returns `True` either way (idempotent). -/
def delete_credential (s : StoreState) (user : String) : StoreState :=
  { s with files := delFile s.files (safe_email user) }

/-- Lexicographic comparison of character lists by code point, the order
Python `sorted` uses on strings. -/
def lexLe : List Char → List Char → Bool
  | [], _ => true
  | _ :: _, [] => false
  | a :: as, b :: bs => if a = b then lexLe as bs else decide (a.toNat < b.toNat)

def insertSorted (a : String) : List String → List String
  | [] => [a]
  | b :: l => if lexLe a.data b.data then a :: b :: l else b :: insertSorted a l

/-- `sorted` on a list of strings (insertion sort, lexicographic). -/
def sortStrings (l : List String) : List String := l.foldr insertSorted []

/-- `SecureCredentialStore.list_users`: every `*.json` filename stem is
decoded back to an email and the result is sorted. -/
def list_users (s : StoreState) : List String :=
  sortStrings (s.files.map (fun p => decode_email p.1))

/-! ## Credential Resolver (`google_auth.py`)

The OAuth provider's refresh endpoint is an oracle
`Credentials → Option Credentials`: `some creds2` models a successful
`creds.refresh(Request())` leaving the object in state `creds2`;
`none` models the provider rejecting the refresh (`RefreshError`).
-/

/-- Modelled from the spec: the validity semantics of the external
google-auth library's `Credentials.expired` (the library itself is not
part of this repository) — "a Token Record is valid iff `access_token`
is present and (`expiry` absent OR `expiry` > now)", so a record is
expired iff its expiry is present and not later than now. -/
def cExpired (c : Credentials) (now : Int) : Bool :=
  match c.expiry with
  | none => false
  | some t => decide (t ≤ now)

/-- Modelled from the spec: the external library's `Credentials.valid`
is "token present and not expired". -/
def cValid (c : Credentials) (now : Int) : Bool :=
  c.token.isSome && !cExpired c now

/-- Result of one resolver call: the returned credentials, the store
state afterwards, and how many refresh attempts were made. -/
structure ResolveRes where
  creds : Option Credentials
  store : StoreState
  refreshAttempts : Nat
deriving DecidableEq

/-- `get_credentials_for_user`: read the store; `None` stays `None`;
valid credentials are returned as-is; expired credentials with a
(truthy) refresh token get exactly one refresh attempt — on success the
refreshed object is persisted via `store_credential` and returned, on
`RefreshError` the failure is logged and `None` is returned; anything
else returns `None`. -/
def get_credentials_for_user (oracle : Credentials → Option Credentials) (now : Int)
    (s : StoreState) (user : String) : ResolveRes :=
  match get_credential s user with
  | none => ⟨none, s, 0⟩
  | some creds =>
    if cValid creds now then ⟨some creds, s, 0⟩
    else if cExpired creds now && truthyS creds.refresh_token then
      match oracle creds with
      | some creds2 => ⟨some creds2, store_credential s user creds2 now, 1⟩
      | none => ⟨none, s, 1⟩
    else ⟨none, s, 0⟩

/-- Loop body of `get_any_valid_credentials`: the user list was computed
once up front, but each `get_credentials_for_user` call works on (and
may update) the current global store. -/
def anyValidAux (oracle : Credentials → Option Credentials) (now : Int) :
    List String → StoreState → Nat → Option (String × Credentials) × StoreState × Nat
  | [], s, n => (none, s, n)
  | u :: us, s, n =>
    let r := get_credentials_for_user oracle now s u
    match r.creds with
    | some c => (some (u, c), r.store, n + r.refreshAttempts)
    | none => anyValidAux oracle now us r.store (n + r.refreshAttempts)

/-- `get_any_valid_credentials`: iterate `store.list_users()` in order,
returning the first user that resolves. -/
def get_any_valid_credentials (oracle : Credentials → Option Credentials) (now : Int)
    (s : StoreState) : Option (String × Credentials) × StoreState × Nat :=
  anyValidAux oracle now (list_users s) s 0

/-! ## clasp token cache (`~/.clasprc.json`) -/

/-- The `scope` value in a clasp token dict: a space-joined string or a
native list. -/
inductive ScopeVal
  | str (s : String)
  | list (l : List String)
deriving DecidableEq

/-- The `token` object of `~/.clasprc.json`; `none` models an absent
key. -/
structure TokenData where
  access_token : Option String
  refresh_token : Option String
  scope : Option ScopeVal
  expiry_date : Option Int
  client_id : Option String
  client_secret : Option String
deriving DecidableEq

/-- Content of `~/.clasprc.json` when the file exists; in `json t`,
`t = none` models `config.get("token")` being absent, null or falsy. -/
inductive ClasprcFile
  | unreadable
  | badJson
  | json (token : Option TokenData)
deriving DecidableEq

/-- `get_clasp_tokens` (google_auth.py): missing file, read error,
malformed JSON and a falsy `token` value all yield `None`. -/
def get_clasp_tokens : Option ClasprcFile → Option TokenData
  | none => none
  | some ClasprcFile.unreadable => none
  | some ClasprcFile.badJson => none
  | some (ClasprcFile.json t) => t

/-- `clasp_tokens_to_credentials`: `expiry_date` is epoch milliseconds,
converted by `datetime.fromtimestamp(ms / 1000)` (abstracted here as
integer division by 1000); a string `scope` is split on spaces; the
token URI is the standard Google endpoint. The Python wraps the body in
`try/except` returning `None`, but no step of the conversion can fail
in this model, so the result is always `some`. -/
def clasp_tokens_to_credentials (t : TokenData) : Option Credentials :=
  some
    { token := t.access_token
      refresh_token := t.refresh_token
      token_uri := default_token_uri
      client_id := t.client_id
      client_secret := t.client_secret
      scopes := match t.scope with
                | none => none
                | some (ScopeVal.str s) => some (split_on_char ' ' s.data |>.map (fun l => ⟨l⟩))
                | some (ScopeVal.list l) => some l
      expiry := t.expiry_date.map (fun ms => ms / 1000) }

/-- `get_credentials`: try the store (`get_any_valid_credentials`)
first; if that fails, read the clasp cache, convert it, look up the
account's email (an external oracle: id_token decode or userinfo API)
and, when an email is found, import the converted credentials into the
store under that email; the converted credentials are returned either
way. Returns (result, final store, total refresh attempts). -/
def get_credentials (oracle : Credentials → Option Credentials)
    (emailOf : Credentials → Option String) (now : Int)
    (s : StoreState) (clasprc : Option ClasprcFile) :
    Option Credentials × StoreState × Nat :=
  match get_any_valid_credentials oracle now s with
  | (some (_, c), s2, n) => (some c, s2, n)
  | (none, s2, n) =>
    match get_clasp_tokens clasprc with
    | none => (none, s2, n)
    | some td =>
      match clasp_tokens_to_credentials td with
      | none => (none, s2, n)
      | some c =>
        match emailOf c with
        | some email => (some c, store_credential s2 email c now, n)
        | none => (some c, s2, n)

/-! ## clasp environment probes (`clasp.py`) -/

/-- The execution environment seen by the clasp CLI adapter:
whether `shutil.which("npx")` finds npx, the outcome of running
`npx @google/clasp --version` (`none` models `TimeoutExpired`,
`FileNotFoundError` or `OSError`; `some rc` a completed process), and
the state of `~/.clasprc.json` (`none`: the file does not exist). -/
structure ClaspEnv where
  npxInstalled : Bool
  claspRun : Option Int
  clasprc : Option ClasprcFile
deriving DecidableEq

/-- `is_clasp_installed` (clasp.py): `False` when npx is absent; runs
`npx @google/clasp --version` and returns whether it exited 0, with
`TimeoutExpired`/`FileNotFoundError`/`OSError` caught as `False`. -/
def is_clasp_installed (env : ClaspEnv) : Bool :=
  if !env.npxInstalled then false
  else
    match env.claspRun with
    | some rc => decide (rc = 0)
    | none => false

/-- `is_clasp_authenticated` (clasp.py): `False` when `~/.clasprc.json`
does not exist; read/parse errors are caught as `False`; otherwise the
truthiness of `"token" in config and config["token"].get("access_token")`. -/
def is_clasp_authenticated (env : ClaspEnv) : Bool :=
  match env.clasprc with
  | none => false
  | some ClasprcFile.unreadable => false
  | some ClasprcFile.badJson => false
  | some (ClasprcFile.json none) => false
  | some (ClasprcFile.json (some td)) => truthyS td.access_token

/-! ## Operation sequences over the store (for the permission invariant) -/

/-- The state-changing store operations (`get_credential` reads only). -/
inductive StoreOp
  | opStore (user : String) (c : Credentials) (now : Int)
  | opDelete (user : String)

def runOps : StoreState → List StoreOp → StoreState
  | s, [] => s
  | s, StoreOp.opStore u c now :: ops => runOps (store_credential s u c now) ops
  | s, StoreOp.opDelete u :: ops => runOps (delete_credential s u) ops

/-! ## Concrete sample values used in counterexamples and witnesses -/

/-- A fully-populated credential record. -/
def sampleCreds : Credentials :=
  { token := some "tok"
    refresh_token := some "refresh"
    token_uri := default_token_uri
    client_id := some "cid"
    client_secret := some "secret"
    scopes := some ["scope1"]
    expiry := some 50 }

/-- An expired credential record (expiry 50) with a refresh token. -/
def staleCreds : Credentials :=
  { token := some "old-token"
    refresh_token := some "refresh"
    token_uri := default_token_uri
    client_id := some "cid"
    client_secret := some "secret"
    scopes := none
    expiry := some 50 }

/-- A store holding only the stale record for `alice@example.com`. -/
def staleStore : StoreState := store_credential initStore "alice@example.com" staleCreds 0

/-- A clasp token cache entry. -/
def claspToken : TokenData :=
  { access_token := some "clasp-token"
    refresh_token := some "clasp-refresh"
    scope := none
    expiry_date := none
    client_id := some "clasp-cid"
    client_secret := some "clasp-secret" }

/-- The credentials `clasp_tokens_to_credentials` builds from
`claspToken`. -/
def claspCreds : Credentials :=
  { token := some "clasp-token"
    refresh_token := some "clasp-refresh"
    token_uri := default_token_uri
    client_id := some "clasp-cid"
    client_secret := some "clasp-secret"
    scopes := none
    expiry := none }

/-- A refresh oracle that always rejects (`RefreshError`). -/
def rejectOracle : Credentials → Option Credentials := fun _ => none

/-- An email-lookup oracle that resolves every credential to
`alice@example.com`. -/
def aliceEmailOf : Credentials → Option String := fun _ => some "alice@example.com"

/-! ## Association-list lemmas -/

theorem getFile_setFile_same (fs : List (String × FileEntry)) (k : String) (v : FileEntry) :
    getFile (setFile fs k v) k = some v := by
  induction fs with
  | nil => simp [setFile, getFile]
  | cons p rest ih =>
    obtain ⟨k2, v2⟩ := p
    by_cases h : k2 = k
    · simp [setFile, h, getFile]
    · simp [setFile, h, getFile, ih]

theorem getFile_setFile_ne (fs : List (String × FileEntry)) (k k2 : String) (v : FileEntry)
    (h : k ≠ k2) : getFile (setFile fs k v) k2 = getFile fs k2 := by
  induction fs with
  | nil => simp [setFile, getFile, h]
  | cons p rest ih =>
    obtain ⟨k3, v3⟩ := p
    by_cases h3 : k3 = k
    · subst h3
      simp [setFile, getFile, h]
    · simp [setFile, h3, getFile, ih]

/-- Writing then reading back the same user gives back the credentials,
provided the token URI is not the falsy `""` and the scope list is not
the falsy `some []` (both are collapsed by `store_credential`). -/
theorem store_get_roundtrip (s : StoreState) (u : String) (c : Credentials) (now : Int)
    (h1 : c.token_uri ≠ "") (h2 : c.scopes ≠ some []) :
    get_credential (store_credential s u c now) u = some c := by
  have hf : getFile (store_credential s u c now).files (safe_email u)
      = some ⟨StoredFile.json (mkCredsData u c now), 384⟩ := by
    simp [store_credential, getFile_setFile_same]
  unfold get_credential
  rw [hf]
  obtain ⟨tok, rt, uri, cid, cs, scopes, expiry⟩ := c
  simp only [credFromData, mkCredsData] at *
  simp only [Option.some.injEq, Credentials.mk.injEq, true_and, and_true]
  refine ⟨?_, ?_, ?_⟩
  · simp [h1]
  · cases scopes with
    | none => rfl
    | some l =>
      have hl : l ≠ [] := by
        intro he
        exact h2 (by simp [he])
      simp [hl]
  · cases expiry <;> simp [parseExpiry]

/-! ## C1 — store isolation -/

/-- Claim C1 as stated is false: the identities `a.b@c.d` and `a_b@c.d`
are distinct (and both syntactically valid emails), yet they sanitize to
the same filename, so storing a record for the first changes what
`get_credential` returns for the second — before the store it returned
`none`, afterwards it returns the stored record. -/
theorem claim_c1_counterexample :
    ("a.b@c.d" : String) ≠ "a_b@c.d" ∧
    isValidEmail "a.b@c.d" = true ∧ isValidEmail "a_b@c.d" = true ∧
    get_credential initStore "a_b@c.d" = none ∧
    get_credential (store_credential initStore "a.b@c.d" sampleCreds 0) "a_b@c.d" ≠ none := by
  decide

/-- Claim C1, amended: store isolation holds for every pair of user
identities whose sanitized filenames differ — storing for `A` leaves
`get_credential B` exactly as it was, so the stored record is not
retrievable under `B`'s key. -/
theorem claim_c1_isolation (s : StoreState) (uA uB : String) (c : Credentials) (now : Int)
    (h : safe_email uA ≠ safe_email uB) :
    get_credential (store_credential s uA c now) uB = get_credential s uB := by
  unfold get_credential
  have hf : (store_credential s uA c now).files
      = setFile s.files (safe_email uA) ⟨StoredFile.json (mkCredsData uA c now), 384⟩ := rfl
  rw [hf, getFile_setFile_ne _ _ _ _ h]

/-- Witness for the amended C1 at concrete inputs. -/
theorem claim_c1_witness :
    get_credential (store_credential initStore "alice@example.com" sampleCreds 0) "bob@example.com"
      = get_credential initStore "bob@example.com" :=
  claim_c1_isolation initStore "alice@example.com" "bob@example.com" sampleCreds 0 (by decide)

/-! ## C7 — absent-not-error reads -/

/-- Claim C7: `get_credential` returns `None` (never an error) when the
per-user file is missing, unreadable, or malformed JSON. -/
theorem claim_c7_absent_reads (s : StoreState) (u : String)
    (h : getFile s.files (safe_email u) = none ∨
         (∃ m, getFile s.files (safe_email u) = some ⟨StoredFile.unreadable, m⟩) ∨
         (∃ m, getFile s.files (safe_email u) = some ⟨StoredFile.badJson, m⟩)) :
    get_credential s u = none := by
  unfold get_credential
  rcases h with h | ⟨m, h⟩ | ⟨m, h⟩ <;> rw [h]

/-- Witness for C7: a store whose only file (for `bob@example.com`) is
unreadable. -/
theorem claim_c7_witness :
    get_credential ⟨[("bob_at_example_com", ⟨StoredFile.unreadable, 384⟩)], 448⟩ "bob@example.com"
      = none :=
  claim_c7_absent_reads ⟨[("bob_at_example_com", ⟨StoredFile.unreadable, 384⟩)], 448⟩
    "bob@example.com" (Or.inr (Or.inl ⟨384, by decide⟩))

/-! ## C8 — permission invariant -/

theorem runOps_dirMode (ops : List StoreOp) (s : StoreState) :
    (runOps s ops).dirMode = s.dirMode := by
  induction ops generalizing s with
  | nil => rfl
  | cons op ops ih =>
    cases op with
    | opStore u c now => simpa [runOps, store_credential] using ih (store_credential s u c now)
    | opDelete u => simpa [runOps, delete_credential] using ih (delete_credential s u)

/-- Claim C8: starting from the freshly initialized store and applying
any sequence of store/delete operations, immediately after a successful
`store_credential` the user's credential file has mode 384 = 0o600 and
the credentials directory has mode 448 = 0o700. -/
theorem claim_c8_permissions (ops : List StoreOp) (u : String) (c : Credentials) (now : Int) :
    getFile (store_credential (runOps initStore ops) u c now).files (safe_email u)
      = some ⟨StoredFile.json (mkCredsData u c now), 384⟩ ∧
    (store_credential (runOps initStore ops) u c now).dirMode = 448 := by
  constructor
  · simp [store_credential, getFile_setFile_same]
  · have hd : (store_credential (runOps initStore ops) u c now).dirMode
        = (runOps initStore ops).dirMode := rfl
    rw [hd, runOps_dirMode]
    rfl

/-! ## C4 — validity check -/

/-- Claim C4: a record is judged valid iff its access token is present
and its expiry is absent or strictly later than now; in particular a
stored record with a token and no expiry is returned by
`get_credentials_for_user` as-is, with no refresh attempt and the store
untouched. -/
theorem claim_c4_validity (oracle : Credentials → Option Credentials) (now : Int)
    (s : StoreState) (u : String) (c : Credentials)
    (hget : get_credential s u = some c) :
    (cValid c now = true ↔
      (c.token.isSome = true ∧ (c.expiry = none ∨ ∃ t, c.expiry = some t ∧ now < t))) ∧
    (c.token.isSome = true → c.expiry = none →
      get_credentials_for_user oracle now s u = ⟨some c, s, 0⟩) := by
  constructor
  · cases hc : c.expiry with
    | none => simp [cValid, cExpired, hc]
    | some t =>
      simp only [cValid, cExpired, hc, Bool.and_eq_true, Bool.not_eq_true']
      constructor
      · rintro ⟨htok, hlt⟩
        refine ⟨htok, Or.inr ⟨t, rfl, ?_⟩⟩
        simpa using hlt
      · rintro ⟨htok, h | ⟨t2, ht2, hlt⟩⟩
        · exact absurd h (by simp)
        · obtain rfl : t2 = t := by injection ht2.symm
          exact ⟨htok, by simpa using hlt⟩
  · intro htok hexp
    have hv : cValid c now = true := by simp [cValid, cExpired, hexp, htok]
    unfold get_credentials_for_user
    rw [hget]
    simp [hv]

/-- Witness for C4 at a concrete never-expiring record. -/
theorem claim_c4_witness :
    get_credentials_for_user rejectOracle 1000 (store_credential initStore "bob@x.co" claspCreds 0)
        "bob@x.co"
      = ⟨some claspCreds, store_credential initStore "bob@x.co" claspCreds 0, 0⟩ :=
  (claim_c4_validity rejectOracle 1000 (store_credential initStore "bob@x.co" claspCreds 0)
      "bob@x.co" claspCreds (by decide)).2 (by decide) (by decide)

/-! ## C5 — expiry policy -/

/-- Claim C5: a stored record with past expiry and a refresh token gets
exactly one refresh attempt per resolution call; on success the
refreshed record is persisted, so a subsequent `get_credential` for the
same user returns the refreshed record (verbatim, provided the
refreshed record has a non-empty token URI and not an empty scope list,
the two falsy values `store_credential` collapses); on rejection no
credentials are returned. -/
theorem claim_c5_expiry_policy (oracle : Credentials → Option Credentials) (now t : Int)
    (s : StoreState) (u : String) (c : Credentials)
    (hget : get_credential s u = some c) (hexp : c.expiry = some t) (hpast : t < now)
    (href : truthyS c.refresh_token = true) :
    (get_credentials_for_user oracle now s u).refreshAttempts = 1 ∧
    (∀ c2, oracle c = some c2 →
      (get_credentials_for_user oracle now s u).creds = some c2 ∧
      (c2.token_uri ≠ "" → c2.scopes ≠ some [] →
        get_credential (get_credentials_for_user oracle now s u).store u = some c2)) ∧
    (oracle c = none → (get_credentials_for_user oracle now s u).creds = none) := by
  have hexpd : cExpired c now = true := by
    simp only [cExpired, hexp, decide_eq_true_eq]
    omega
  have hv : cValid c now = false := by simp [cValid, hexpd]
  unfold get_credentials_for_user
  rw [hget]
  simp only [hv, hexpd, href, Bool.and_self, if_false, if_true, Bool.false_eq_true]
  cases ho : oracle c with
  | some c2 =>
    refine ⟨rfl, ?_, ?_⟩
    · rintro c3 h3
      injection h3 with he
      subst he
      exact ⟨rfl, fun h1 h2 => store_get_roundtrip s u _ now h1 h2⟩
    · intro h
      exact absurd h (by simp)
  | none => simp

/-- Witness for C5: the stale record for alice is refreshed by an oracle
returning `sampleCreds` with a future expiry; the attempt count is 1 and
the store afterwards serves the refreshed record. -/
theorem claim_c5_witness :
    (get_credentials_for_user (fun _ => some sampleCreds) 100 staleStore
        "alice@example.com").refreshAttempts = 1 ∧
    get_credential (get_credentials_for_user (fun _ => some sampleCreds) 100 staleStore
        "alice@example.com").store "alice@example.com" = some sampleCreds := by
  have h := claim_c5_expiry_policy (fun _ => some sampleCreds) 100 50 staleStore
    "alice@example.com" (credFromData (mkCredsData "alice@example.com" staleCreds 0))
    (by decide) (by decide) (by decide) (by decide)
  exact ⟨h.1, ((h.2.1 sampleCreds rfl).2 (by decide) (by decide))⟩

/-! ## C3 — no fallback after rejection -/

/-- Claim C3 as stated is false for the identity-less resolution entry
point `get_credentials`: with the store holding only alice's expired
record (with refresh token), the provider rejecting the refresh, and
the clasp cache holding tokens that resolve to alice's own email,
`get_credentials` does not report failure — it returns the clasp
credentials and even overwrites alice's store entry with them. -/
theorem claim_c3_counterexample :
    get_credential staleStore "alice@example.com"
        = some (credFromData (mkCredsData "alice@example.com" staleCreds 0)) ∧
    cExpired (credFromData (mkCredsData "alice@example.com" staleCreds 0)) 100 = true ∧
    truthyS (credFromData (mkCredsData "alice@example.com" staleCreds 0)).refresh_token = true ∧
    rejectOracle (credFromData (mkCredsData "alice@example.com" staleCreds 0)) = none ∧
    (get_credentials rejectOracle aliceEmailOf 100 staleStore
        (some (ClasprcFile.json (some claspToken)))).1 = some claspCreds ∧
    get_credential
        (get_credentials rejectOracle aliceEmailOf 100 staleStore
          (some (ClasprcFile.json (some claspToken)))).2.1 "alice@example.com"
      = some claspCreds := by
  decide

/-- Claim C3, amended: the no-fallback guarantee holds for the
per-identity resolution call `get_credentials_for_user`: when the
provider rejects the refresh of the stored expired record, the call
returns no credentials, leaves the store unchanged, and makes exactly
the one rejected refresh attempt (it consults no other source); the
identity-less `get_credentials` may afterwards still fall back to the
clasp cache, even for the same identity. -/
theorem claim_c3_no_fallback (oracle : Credentials → Option Credentials) (now : Int)
    (s : StoreState) (u : String) (c : Credentials)
    (hget : get_credential s u = some c) (hexpd : cExpired c now = true)
    (href : truthyS c.refresh_token = true) (horacle : oracle c = none) :
    get_credentials_for_user oracle now s u = ⟨none, s, 1⟩ := by
  have hv : cValid c now = false := by simp [cValid, hexpd]
  unfold get_credentials_for_user
  rw [hget]
  simp [hv, hexpd, href, horacle]

/-- Witness for the amended C3 at concrete inputs. -/
theorem claim_c3_witness :
    get_credentials_for_user rejectOracle 100 staleStore "alice@example.com"
      = ⟨none, staleStore, 1⟩ :=
  claim_c3_no_fallback rejectOracle 100 staleStore "alice@example.com"
    (credFromData (mkCredsData "alice@example.com" staleCreds 0))
    (by decide) (by decide) (by decide) (by decide)

/-! ## C9 — fail-closed probes -/

/-- Claim C9: the clasp probes fail closed — `is_clasp_installed`
returns `false` whenever npx is absent or the clasp subprocess does not
exit 0 (including spawn failure and timeout), and
`is_clasp_authenticated` returns `false` whenever `~/.clasprc.json`
does not exist; neither raises. -/
theorem claim_c9_fail_closed (env : ClaspEnv) :
    ((env.npxInstalled = false ∨ env.claspRun = none) → is_clasp_installed env = false) ∧
    (env.clasprc = none → is_clasp_authenticated env = false) := by
  constructor
  · rintro (h | h)
    · simp [is_clasp_installed, h]
    · cases hn : env.npxInstalled <;> simp [is_clasp_installed, h, hn]
  · intro h
    simp [is_clasp_authenticated, h]

/-- Witness for C9: the environment with no npx, no clasp binary and no
token cache. -/
theorem claim_c9_witness :
    is_clasp_installed ⟨false, none, none⟩ = false ∧
    is_clasp_authenticated ⟨false, none, none⟩ = false :=
  ⟨(claim_c9_fail_closed ⟨false, none, none⟩).1 (Or.inl rfl),
   (claim_c9_fail_closed ⟨false, none, none⟩).2 rfl⟩

/-! ## C10 — unparseable expiry yields a non-expiring credential -/

/-- Claim C10: a well-formed JSON credential file whose `expiry` string
does not parse is not treated as a decode failure: `get_credential`
returns the record with `expiry = None`, and (when the access token is
present) the resolver then treats it as valid at every instant,
returning it with no refresh attempt. -/
theorem claim_c10_bad_expiry (s : StoreState) (u : String) (d : CredsData) (m : Nat)
    (str : String)
    (hfile : getFile s.files (safe_email u) = some ⟨StoredFile.json d, m⟩)
    (hexp : d.expiry = some (ExpiryField.bad str))
    (htok : d.token.isSome = true) :
    get_credential s u = some (credFromData d) ∧
    (credFromData d).expiry = none ∧
    (∀ oracle now, get_credentials_for_user oracle now s u = ⟨some (credFromData d), s, 0⟩) := by
  have hg : get_credential s u = some (credFromData d) := by
    unfold get_credential
    rw [hfile]
  have he : (credFromData d).expiry = none := by
    simp [credFromData, hexp, parseExpiry]
  refine ⟨hg, he, ?_⟩
  intro oracle now
  have hv : cValid (credFromData d) now = true := by
    unfold cValid cExpired
    rw [he]
    simp [credFromData, htok]
  unfold get_credentials_for_user
  rw [hg]
  simp [hv]

/-- Witness for C10: a store whose only file is well-formed JSON with
the unparseable expiry string `"not-a-date"`. -/
theorem claim_c10_witness :
    get_credentials_for_user rejectOracle 1000000
        ⟨[("carol_at_x_co",
           ⟨StoredFile.json
             { token := some "tok"
               refresh_token := some "r"
               token_uri := some default_token_uri
               client_id := some "cid"
               client_secret := some "cs"
               scopes := some ["s"]
               expiry := some (ExpiryField.bad "not-a-date")
               user_email := "carol@x.co"
               stored_at := 0 }, 384⟩)], 448⟩ "carol@x.co"
      = ⟨some (credFromData
          { token := some "tok"
            refresh_token := some "r"
            token_uri := some default_token_uri
            client_id := some "cid"
            client_secret := some "cs"
            scopes := some ["s"]
            expiry := some (ExpiryField.bad "not-a-date")
            user_email := "carol@x.co"
            stored_at := 0 }),
         ⟨[("carol_at_x_co",
           ⟨StoredFile.json
             { token := some "tok"
               refresh_token := some "r"
               token_uri := some default_token_uri
               client_id := some "cid"
               client_secret := some "cs"
               scopes := some ["s"]
               expiry := some (ExpiryField.bad "not-a-date")
               user_email := "carol@x.co"
               stored_at := 0 }, 384⟩)], 448⟩, 0⟩ :=
  (claim_c10_bad_expiry _ "carol@x.co" _ 384 "not-a-date" (by decide) (by decide) (by decide)).2.2
    rejectOracle 1000000

/-! ## C6 — round-trip through the store -/

/-- Claim C6: storing a fully-populated record and reading it back
yields the same record (here verbatim, which implies equality of scope
sets and expiry instants). -/
theorem claim_c6_round_trip (s : StoreState) (u : String) (c : Credentials) (now : Int)
    (_h1 : c.token.isSome = true) (_h2 : c.refresh_token.isSome = true)
    (h3 : c.token_uri ≠ "") (_h4 : c.client_id.isSome = true) (_h5 : c.client_secret.isSome = true)
    (h6 : ∃ l, c.scopes = some l ∧ l ≠ []) (_h7 : c.expiry.isSome = true) :
    get_credential (store_credential s u c now) u = some c := by
  obtain ⟨l, hl, hlne⟩ := h6
  refine store_get_roundtrip s u c now h3 ?_
  rw [hl]
  simp [hlne]

/-- Witness for C6 with the fully-populated `sampleCreds`. -/
theorem claim_c6_witness :
    get_credential (store_credential initStore "alice@example.com" sampleCreds 0)
        "alice@example.com" = some sampleCreds :=
  claim_c6_round_trip initStore "alice@example.com" sampleCreds 0 (by decide) (by decide)
    (by decide) (by decide) (by decide) ⟨["scope1"], rfl, by decide⟩ (by decide)

/-! ## C2 — identity invertibility of the email codec -/

theorem replace_char_append (a : Char) (r : List Char) (l1 l2 : List Char) :
    replace_char a r (l1 ++ l2) = replace_char a r l1 ++ replace_char a r l2 := by
  induction l1 with
  | nil => rfl
  | cons c s ih => simp [replace_char, ih]

/-- The two single-character replacement passes of the sanitizer equal
the per-character encoding. -/
theorem safe_email_chars_eq_enc_map (l : List Char) : safe_email_chars l = enc_map l := by
  induction l with
  | nil => rfl
  | cons c s ih =>
    unfold safe_email_chars at ih ⊢
    by_cases hat : c = '@'
    · subst hat
      simp only [replace_char, if_pos rfl, replace_char_append, ih]
      simp [replace_char, enc_map, enc_char]
      exact ih
    · by_cases hdot : c = '.'
      · subst hdot
        simp only [replace_char, replace_char_append, ih]
        simp [replace_char, enc_map, enc_char]
        exact ih
      · simp only [replace_char, if_neg hat, replace_char_append, ih]
        simp [replace_char, enc_map, enc_char, hat, hdot]

/-- Scanning past a position that does not start a `_at_` window. -/
theorem replace_at_skip (c : Char) (l : List Char)
    (h : ¬(c = '_' ∧ l.take 3 = ['a', 't', '_'])) :
    replace_at_marker (c :: l) = c :: replace_at_marker l := by
  rcases l with _ | ⟨d1, l2⟩
  · rfl
  rcases l2 with _ | ⟨d2, l3⟩
  · rfl
  rcases l3 with _ | ⟨d3, rest⟩
  · rfl
  have hcond : ¬(c = '_' ∧ d1 = 'a' ∧ d2 = 't' ∧ d3 = '_') := by
    rintro ⟨hc, ha, ht, hu⟩
    exact h ⟨hc, by simp [ha, ht, hu]⟩
  show (if c = '_' ∧ d1 = 'a' ∧ d2 = 't' ∧ d3 = '_' then '@' :: replace_at_marker rest
        else c :: replace_at_marker (d1 :: d2 :: d3 :: rest))
      = c :: replace_at_marker (d1 :: d2 :: d3 :: rest)
  rw [if_neg hcond]

/-- Under no-underscore and no-spurious-pattern hypotheses, the encoding
of the tail after a dot cannot begin with the marker tail `at_`. -/
theorem take3_enc_map_ne (s : List Char) (h1 : '_' ∉ s)
    (hb1 : s.take 3 ≠ ['a', 't', '.']) (hb2 : s.take 3 ≠ ['a', 't', '@']) :
    (enc_map s).take 3 ≠ ['a', 't', '_'] := by
  rcases s with _ | ⟨c1, s2⟩
  · simp [enc_map]
  by_cases hc1 : c1 = '@'
  · subst hc1
    simp [enc_map, enc_char]
  by_cases hc1d : c1 = '.'
  · subst hc1d
    simp [enc_map, enc_char]
  have hc1u : c1 ≠ '_' := fun he => h1 (by simp [he])
  by_cases hca : c1 = 'a'
  · subst hca
    have h1b : '_' ∉ s2 := fun he => h1 (List.mem_cons_of_mem _ he)
    rcases s2 with _ | ⟨c2, s3⟩
    · simp [enc_map, enc_char]
    by_cases hc2 : c2 = '@'
    · subst hc2
      simp [enc_map, enc_char]
    by_cases hc2d : c2 = '.'
    · subst hc2d
      simp [enc_map, enc_char]
    have hc2u : c2 ≠ '_' := fun he => h1 (by simp [he])
    by_cases hct : c2 = 't'
    · subst hct
      rcases s3 with _ | ⟨c3, s4⟩
      · simp [enc_map, enc_char]
      by_cases hc3 : c3 = '@'
      · exact absurd (by simp [hc3]) hb2
      by_cases hc3d : c3 = '.'
      · exact absurd (by simp [hc3d]) hb1
      have hc3u : c3 ≠ '_' := fun he => h1 (by simp [he])
      simp [enc_map, enc_char, hc3, hc3d, hc3u]
    · simp [enc_map, enc_char, hc2, hc2d, hct]
  · simp [enc_map, enc_char, hc1, hc1d, hca]

/-- Folding the `_at_` markers of an encoded email back to `@`: with no
underscore and no spurious `.at.`/`.at@` pattern in the source, exactly
the encoded `@`s are replaced, leaving dots as underscores. -/
theorem replace_at_enc_map (s : List Char) (h1 : '_' ∉ s)
    (h2 : no_spurious_marker s = true) :
    replace_at_marker (enc_map s) = s.map mark_dots := by
  induction s with
  | nil => rfl
  | cons c s1 ih =>
    have h1s : '_' ∉ s1 := fun he => h1 (List.mem_cons_of_mem _ he)
    have h1c : c ≠ '_' := fun he => h1 (by simp [he])
    have h2s : no_spurious_marker s1 = true := by
      have h := h2
      simp only [no_spurious_marker, Bool.and_eq_true] at h
      exact h.2
    have hsp : spurious_head (c :: s1) = false := by
      have h := h2
      simp only [no_spurious_marker, Bool.and_eq_true, Bool.not_eq_true'] at h
      exact h.1
    by_cases hat : c = '@'
    · subst hat
      show replace_at_marker ('_' :: 'a' :: 't' :: '_' :: enc_map s1)
          = List.map mark_dots ('@' :: s1)
      rw [show replace_at_marker ('_' :: 'a' :: 't' :: '_' :: enc_map s1)
            = if ('_' : Char) = '_' ∧ ('a' : Char) = 'a' ∧ ('t' : Char) = 't' ∧ ('_' : Char) = '_'
              then '@' :: replace_at_marker (enc_map s1)
              else '_' :: replace_at_marker ('a' :: 't' :: '_' :: enc_map s1) from rfl]
      rw [if_pos ⟨rfl, rfl, rfl, rfl⟩, ih h1s h2s]
      simp [mark_dots]
    · by_cases hdot : c = '.'
      · subst hdot
        have hb1 : s1.take 3 ≠ ['a', 't', '.'] := by
          intro he
          apply absurd hsp
          simp [spurious_head, he]
        have hb2 : s1.take 3 ≠ ['a', 't', '@'] := by
          intro he
          apply absurd hsp
          simp [spurious_head, he]
        have hno : ¬(('_' : Char) = '_' ∧ (enc_map s1).take 3 = ['a', 't', '_']) := by
          rintro ⟨-, htake⟩
          exact take3_enc_map_ne s1 h1s hb1 hb2 htake
        show replace_at_marker ('_' :: enc_map s1) = List.map mark_dots ('.' :: s1)
        rw [replace_at_skip '_' (enc_map s1) hno, ih h1s h2s]
        simp [mark_dots]
      · have hmap : enc_map (c :: s1) = c :: enc_map s1 := by
          simp [enc_map, enc_char, hat, hdot]
        have hno : ¬(c = '_' ∧ (enc_map s1).take 3 = ['a', 't', '_']) := by
          rintro ⟨hc, -⟩
          exact h1c hc
        rw [hmap, replace_at_skip c (enc_map s1) hno, ih h1s h2s]
        simp [mark_dots, hdot]

/-- Undoing the dot-to-underscore substitution on an underscore-free
source string. -/
theorem replace_char_und (s : List Char) (h1 : '_' ∉ s) :
    replace_char '_' ['.'] (s.map mark_dots) = s := by
  induction s with
  | nil => rfl
  | cons c s1 ih =>
    have h1s : '_' ∉ s1 := fun he => h1 (List.mem_cons_of_mem _ he)
    have h1c : c ≠ '_' := fun he => h1 (by simp [he])
    by_cases hdot : c = '.'
    · subst hdot
      simp [replace_char, mark_dots, ih h1s]
    · simp [replace_char, mark_dots, hdot, h1c, ih h1s]

/-- Claim C2 as stated is false: `a_b@c.d` is a syntactically valid
email, but encoding then decoding it yields `a.b@c.d`. -/
theorem claim_c2_counterexample :
    isValidEmail "a_b@c.d" = true ∧
    decode_email (safe_email "a_b@c.d") = "a.b@c.d" ∧
    ("a.b@c.d" : String) ≠ "a_b@c.d" := by
  decide

/-- Claim C2, amended: `decode(encode(e)) == e` holds for every email
(indeed every string) that contains no underscore character and no
occurrence of the substrings `.at.` or `.at@` (each of which makes the
encoding produce a spurious `_at_` marker). -/
theorem claim_c2_decode_encode (e : String) (h1 : '_' ∉ e.data)
    (h2 : no_spurious_marker e.data = true) :
    decode_email (safe_email e) = e := by
  show String.mk (replace_char '_' ['.'] (replace_at_marker (safe_email_chars e.data))) = e
  rw [safe_email_chars_eq_enc_map, replace_at_enc_map e.data h1 h2, replace_char_und e.data h1]

/-- Witness for the amended C2 at a concrete valid email. -/
theorem claim_c2_witness :
    isValidEmail "alice@example.com" = true ∧
    decode_email (safe_email "alice@example.com") = "alice@example.com" :=
  ⟨by decide, claim_c2_decode_encode "alice@example.com" (by decide) (by decide)⟩

end GoogleAutomationMcp
